import Mathlib

/-!
Shallow embedding of the poker hand-lifecycle engine from
`frontend/lib/poker-game.ts` (class `PokerGame`), together with proofs of the
specification's claims about it.

Modelling conventions:
* TypeScript `number` chip amounts are modelled as `Int` (the code only ever
  adds and subtracts integers).
* The six-element `players` array is modelled as `Fin 6 → Player`; the
  `% 6` index arithmetic of the source becomes `Fin 6` addition.
* The deck array is consumed with `Array.pop()` (from the end); the model
  stores the deck with the top of the deck at the HEAD of the list, so each
  `pop()` is one `List` head match.  A draw from an empty deck (which in the
  source would produce `undefined` under a non-null assertion) is modelled as
  the `none` result of an `Option`-returning operation.
* `Math.random()`-derived data (the shuffled deck and the generated hand id)
  are inputs of `startNewHand` rather than being produced internally.
-/

namespace Poker

/-- One seat's per-hand state (interface `Player` in `types/poker.ts`). -/
structure Player where
  id : Nat
  name : String
  stack : Int
  holeCards : List String
  currentBet : Int
  hasActed : Bool
  isFolded : Bool
  isAllIn : Bool
deriving Repr, DecidableEq

/-- The street / lifecycle state (type `GameState` in `types/poker.ts`). -/
inductive GameState where
  | preflop
  | flop
  | turn
  | river
  | showdown
deriving Repr, DecidableEq

/-- The mutable state of class `PokerGame`. -/
structure Game where
  players : Fin 6 → Player
  dealerPosition : Fin 6
  smallBlindPosition : Fin 6
  bigBlindPosition : Fin 6
  currentPlayerIndex : Fin 6
  smallBlind : Int
  bigBlind : Int
  pot : Int
  communityCards : List String
  currentBet : Int
  gameState : GameState
  stackSize : Int
  deck : List String
  handId : String

/-- The record produced at settlement (interface `HandResult`). -/
structure HandResult where
  id : String
  stackSize : Int
  dealerPosition : Nat
  smallBlindPosition : Nat
  bigBlindPosition : Nat
  playerHands : String
  actionSequence : String
  winnings : String
  totalPot : Int
  summary : String
deriving Repr, DecidableEq

/-- `this.players.filter((p) => !p.isFolded)`. -/
def activePlayers (g : Game) : List Player :=
  ((List.finRange 6).map g.players).filter (fun p => !p.isFolded)

/-- `isHandComplete()`: at most one non-folded seat, or the street is showdown. -/
def isHandComplete (g : Game) : Bool :=
  decide ((activePlayers g).length ≤ 1) || decide (g.gameState = GameState.showdown)

/-- `getCurrentPlayer()`: `null` once the hand is complete, else the seat at
`currentPlayerIndex`. -/
def getCurrentPlayer (g : Game) : Option Player :=
  if isHandComplete g then none else some (g.players g.currentPlayerIndex)

/-- `getValidActions()`: the pure query listing the currently legal actions. -/
def getValidActions (g : Game) : List String :=
  match getCurrentPlayer g with
  | none => []
  | some p =>
    if p.isFolded || p.isAllIn then []
    else
      let callAmount := g.currentBet - p.currentBet
      ["fold"]
        ++ (if callAmount = 0 then ["check"]
            else if callAmount < p.stack then ["call"] else [])
        ++ (if p.stack > callAmount then
              (if g.currentBet = 0 then ["bet"] else ["raise"])
            else [])
        ++ (if p.stack > 0 then ["allin"] else [])

/-- The `do … while` loop of `moveToNextPlayer`: advance the index, stopping at
the first non-folded, non-all-in seat; the source bounds the loop by an
`attempts` counter that forces a return after the seventh advance, which the
model expresses as structural fuel (initial fuel 6 allows six guarded advances
followed by one final unguarded advance). -/
def advanceSeek (ps : Fin 6 → Player) (idx : Fin 6) : Nat → Fin 6
  | 0 => idx + 1
  | fuel + 1 =>
    let idx' := idx + 1
    if (ps idx').isFolded || (ps idx').isAllIn then advanceSeek ps idx' fuel else idx'

/-- The `while` loop at the end of `moveToNextBettingRound`: starting at the
given index, find the first non-folded, non-all-in seat; the source's
`attempts` bound (return after the seventh increment) becomes structural fuel,
so the initial call uses fuel 7. -/
def seekActive (ps : Fin 6 → Player) (idx : Fin 6) : Nat → Fin 6
  | 0 => idx
  | fuel + 1 =>
    if (ps idx).isFolded || (ps idx).isAllIn then seekActive ps (idx + 1) fuel else idx

/-- `this.players.filter((p) => !p.isFolded && !p.isAllIn)`. -/
def activeBettors (g : Game) : List Player :=
  ((List.finRange 6).map g.players).filter (fun p => !p.isFolded && !p.isAllIn)

/-- `isBettingRoundComplete()`. -/
def isBettingRoundComplete (g : Game) : Bool :=
  (activeBettors g).all (fun p => p.hasActed && decide (p.currentBet = g.currentBet))
    || decide ((activeBettors g).length ≤ 1)

/-- `moveToNextBettingRound()`: reset per-street seat state and the table bet,
advance the street, short-circuit to showdown when every remaining seat is
all-in or at most one seat remains, otherwise seat the first active player
after the dealer. -/
def moveToNextBettingRound (g : Game) : Game :=
  let ps : Fin 6 → Player := fun i => { g.players i with hasActed := false, currentBet := 0 }
  let gs : GameState :=
    match g.gameState with
    | GameState.preflop => GameState.flop
    | GameState.flop => GameState.turn
    | GameState.turn => GameState.river
    | GameState.river => GameState.showdown
    | GameState.showdown => GameState.showdown
  let g1 : Game := { g with players := ps, currentBet := 0, gameState := gs }
  let active := ((List.finRange 6).map ps).filter (fun p => !p.isFolded)
  if active.all (fun p => p.isAllIn) || active.length ≤ 1 then
    { g1 with gameState := GameState.showdown }
  else
    { g1 with currentPlayerIndex := seekActive ps (g.dealerPosition + 1) 7 }

/-- `moveToNextPlayer()`. -/
def moveToNextPlayer (g : Game) : Game :=
  if isHandComplete g then g
  else if isBettingRoundComplete g then moveToNextBettingRound g
  else { g with currentPlayerIndex := advanceSeek g.players g.currentPlayerIndex 6 }

/-- The `forEach` in `bet`/`raise`/`allIn` that clears `hasActed` on every
other non-folded seat; the actor's own entry is subsequently overridden by a
`Function.update` at `currentPlayerIndex`, matching the source's
`index !== this.currentPlayerIndex` test. -/
def resetOthersActed (ps : Fin 6 → Player) : Fin 6 → Player :=
  fun i => if (ps i).isFolded then ps i else { ps i with hasActed := false }

/-- `fold()`. -/
def fold (g : Game) : String × Game :=
  match getCurrentPlayer g with
  | none => ("", g)
  | some p =>
    let p1 := { p with isFolded := true, hasActed := true }
    let g' := { g with players := Function.update g.players g.currentPlayerIndex p1 }
    ("Player " ++ toString p.id ++ " folds", moveToNextPlayer g')

/-- `check()`: rejected (empty string, no mutation) when the table bet exceeds
the actor's street bet. -/
def check (g : Game) : String × Game :=
  match getCurrentPlayer g with
  | none => ("", g)
  | some p =>
    if g.currentBet > p.currentBet then ("", g)
    else
      let p1 := { p with hasActed := true }
      let g' := { g with players := Function.update g.players g.currentPlayerIndex p1 }
      ("Player " ++ toString p.id ++ " checks", moveToNextPlayer g')

/-- `call()`: commit `min(currentBet - streetBet, stack)` chips. -/
def call (g : Game) : String × Game :=
  match getCurrentPlayer g with
  | none => ("", g)
  | some p =>
    let callAmount := g.currentBet - p.currentBet
    let actualCall := min callAmount p.stack
    let p1 := { p with stack := p.stack - actualCall,
                       currentBet := p.currentBet + actualCall, hasActed := true }
    let p2 := if p1.stack = 0 then { p1 with isAllIn := true } else p1
    let g' := { g with players := Function.update g.players g.currentPlayerIndex p2,
                       pot := g.pot + actualCall }
    ("Player " ++ toString p.id ++ " calls " ++ toString actualCall, moveToNextPlayer g')

/-- `bet(amount)`: rejected when a bet is already outstanding; otherwise commit
`min(amount, stack)`, set the table bet, and clear the other seats'
`hasActed`. -/
def bet (amount : Int) (g : Game) : String × Game :=
  match getCurrentPlayer g with
  | none => ("", g)
  | some p =>
    if g.currentBet > 0 then ("", g)
    else
      let betAmount := min amount p.stack
      let p1 := { p with stack := p.stack - betAmount,
                         currentBet := betAmount, hasActed := true }
      let p2 := if p1.stack = 0 then { p1 with isAllIn := true } else p1
      let ps' := Function.update (resetOthersActed g.players) g.currentPlayerIndex p2
      let g' := { g with players := ps', currentBet := betAmount, pot := g.pot + betAmount }
      ("Player " ++ toString p.id ++ " bets " ++ toString betAmount, moveToNextPlayer g')

/-- `raise(amount)`: rejected when no bet is outstanding; otherwise commit
`min((currentBet - streetBet) + amount, stack)`, move the table bet to the
actor's new street total, and clear the other seats' `hasActed`. -/
def raise (amount : Int) (g : Game) : String × Game :=
  match getCurrentPlayer g with
  | none => ("", g)
  | some p =>
    if g.currentBet = 0 then ("", g)
    else
      let callAmount := g.currentBet - p.currentBet
      let totalAmount := min (callAmount + amount) p.stack
      let p1 := { p with stack := p.stack - totalAmount,
                         currentBet := p.currentBet + totalAmount, hasActed := true }
      let p2 := if p1.stack = 0 then { p1 with isAllIn := true } else p1
      let ps' := Function.update (resetOthersActed g.players) g.currentPlayerIndex p2
      let g' := { g with players := ps', currentBet := p1.currentBet,
                         pot := g.pot + totalAmount }
      ("Player " ++ toString p.id ++ " raises to " ++ toString p1.currentBet,
        moveToNextPlayer g')

/-- `allIn()`: rejected on an empty stack; otherwise commit the whole stack,
and when the resulting street total exceeds the table bet treat it as a raise
(update the table bet, clear the other seats' `hasActed`). -/
def allIn (g : Game) : String × Game :=
  match getCurrentPlayer g with
  | none => ("", g)
  | some p =>
    if p.stack = 0 then ("", g)
    else
      let allInAmount := p.stack
      let p1 := { p with stack := 0, currentBet := p.currentBet + allInAmount,
                         hasActed := true, isAllIn := true }
      let ps' :=
        if p1.currentBet > g.currentBet then
          Function.update (resetOthersActed g.players) g.currentPlayerIndex p1
        else
          Function.update g.players g.currentPlayerIndex p1
      let g' := { g with players := ps',
                         currentBet := if p1.currentBet > g.currentBet then p1.currentBet
                                       else g.currentBet,
                         pot := g.pot + allInAmount }
      ("Player " ++ toString p.id ++ " goes all-in with " ++ toString allInAmount,
        moveToNextPlayer g')

/-- `shouldDealCommunityCards()`. -/
def shouldDealCommunityCards (g : Game) : Bool :=
  (decide (g.gameState = GameState.flop) && decide (g.communityCards.length = 0))
    || (decide (g.gameState = GameState.turn) && decide (g.communityCards.length = 3))
    || (decide (g.gameState = GameState.river) && decide (g.communityCards.length = 4))

/-- `dealCommunityCards()`: burn one and reveal three on the flop, burn one and
reveal one on the turn and river, `null` (modelled as `some (none, g)`) when no
branch applies.  The outer `none` models a draw from an exhausted deck, which
in the source would push `undefined` under a non-null assertion. -/
def dealCommunityCards (g : Game) : Option (Option String × Game) :=
  if g.gameState = GameState.flop ∧ g.communityCards.length = 0 then
    match g.deck with
    | _burn :: c1 :: c2 :: c3 :: rest =>
      let cc := g.communityCards ++ [c1, c2, c3]
      some (some ("Flop cards dealt: " ++ String.join cc),
        { g with deck := rest, communityCards := cc })
    | _ => none
  else if g.gameState = GameState.turn ∧ g.communityCards.length = 3 then
    match g.deck with
    | _burn :: c :: rest =>
      let cc := g.communityCards ++ [c]
      some (some ("Turn card dealt: " ++ cc.getD 3 ""),
        { g with deck := rest, communityCards := cc })
    | _ => none
  else if g.gameState = GameState.river ∧ g.communityCards.length = 4 then
    match g.deck with
    | _burn :: c :: rest =>
      let cc := g.communityCards ++ [c]
      some (some ("River card dealt: " ++ cc.getD 4 ""),
        { g with deck := rest, communityCards := cc })
    | _ => none
  else some (none, g)

/-- `startNewHand()`: reset the seats (stacks persist), deal two hole cards to
each seat one card per pass (player `j` receives the `j+1`-st and `j+7`-th
cards off the top), post the blinds, set the table bet to the big blind and
seat the player after the big blind.  The freshly shuffled deck and the
generated hand id are `Math.random()`-derived and therefore inputs here;
`none` models drawing hole cards from a deck with fewer than 12 cards. -/
def startNewHand (hid : String) (d : List String) (g : Game) : Option Game :=
  match d with
  | c1 :: c2 :: c3 :: c4 :: c5 :: c6 :: c7 :: c8 :: c9 :: c10 :: c11 :: c12 :: rest =>
    let hole : Fin 6 → List String := fun j =>
      match j.1 with
      | 0 => [c1, c7]
      | 1 => [c2, c8]
      | 2 => [c3, c9]
      | 3 => [c4, c10]
      | 4 => [c5, c11]
      | _ => [c6, c12]
    let ps0 : Fin 6 → Player := fun j =>
      { g.players j with holeCards := hole j, currentBet := 0, hasActed := false,
                         isFolded := false, isAllIn := false }
    let sb := g.smallBlindPosition
    let bb := g.bigBlindPosition
    let ps1 := Function.update ps0 sb
      { ps0 sb with stack := (ps0 sb).stack - g.smallBlind, currentBet := g.smallBlind }
    let ps2 := Function.update ps1 bb
      { ps1 bb with stack := (ps1 bb).stack - g.bigBlind, currentBet := g.bigBlind }
    some { g with handId := hid, deck := rest, communityCards := [],
                  pot := g.smallBlind + g.bigBlind, currentBet := g.bigBlind,
                  gameState := GameState.preflop, players := ps2,
                  currentPlayerIndex := g.bigBlindPosition + 1 }
  | _ => none

/-- The first non-folded seat index, i.e. the seat `getHandResult` awards the
pot to (`activePlayers[0]` over the index order of `players`). -/
def firstNonFolded (g : Game) : Option (Fin 6) :=
  ((List.finRange 6).filter (fun i => !(g.players i).isFolded)).head?

/-- `getHandResult()`: award the whole pot to the first non-folded seat
(`activePlayers[0]`), leaving the pot itself untouched, and build the result
record; `none` models the source crashing on `winner.stack` when every seat
has folded (unreachable in play).  The returned `Game` is the mutated
instance. -/
def getHandResult (g : Game) : Option (HandResult × Game) :=
  match ((List.finRange 6).filter (fun i => !(g.players i).isFolded)) with
  | [] => none
  | w :: _ =>
    let winner := g.players w
    let ps' := Function.update g.players w { winner with stack := winner.stack + g.pot }
    let g' : Game := { g with players := ps' }
    let playerHands := String.intercalate "; " ((List.finRange 6).map (fun i =>
      "Player " ++ toString (i.1 + 1) ++ ": " ++ String.join ((g'.players i).holeCards)))
    let winnings := String.intercalate "; " ((List.finRange 6).map (fun i =>
      let change := (g'.players i).stack - g.stackSize
      "Player " ++ toString (i.1 + 1) ++ ": "
        ++ (if change ≥ 0 then "+" else "") ++ toString change))
    some ({ id := g.handId, stackSize := g.stackSize,
            dealerPosition := g.dealerPosition.1,
            smallBlindPosition := g.smallBlindPosition.1,
            bigBlindPosition := g.bigBlindPosition.1,
            playerHands := playerHands,
            actionSequence := "f.f.f.r300.c.f.3hKdQs.x.b100.c.Ac.x.x.Th.b80.r160.c",
            winnings := winnings,
            totalPot := g.pot,
            summary := "Hand #" ++ g.handId ++ " ended" }, g')

/-- The constructor path without a `previousGame`: six fresh seats with the
configured stack, fixed positions, empty board and deck. -/
def freshGame (stackSize : Int) : Game :=
  { players := fun i =>
      { id := i.1 + 1, name := "Player " ++ toString (i.1 + 1), stack := stackSize,
        holeCards := [], currentBet := 0, hasActed := false,
        isFolded := false, isAllIn := false },
    dealerPosition := 0, smallBlindPosition := 1, bigBlindPosition := 2,
    currentPlayerIndex := 3, smallBlind := 20, bigBlind := 40, pot := 0,
    communityCards := [], currentBet := 0, gameState := GameState.preflop,
    stackSize := stackSize, deck := [], handId := "" }

/-- The 52 card codes `createDeck` generates before shuffling (rank then suit,
suits in the order h, d, c, s); any 52-card sequence stands in for a shuffle
result in the theorems, this one serves as a concrete witness deck. -/
def standardDeck : List String :=
  (["h", "d", "c", "s"]).foldr (fun s acc =>
    ((["2", "3", "4", "5", "6", "7", "8", "9", "T", "J", "Q", "K", "A"]).map
      (fun r => r ++ s)) ++ acc) []

/-- One caller-invokable betting action. -/
inductive Action where
  | fold
  | check
  | call
  | bet (amount : Int)
  | raise (amount : Int)
  | allIn

/-- Apply one action to the game, yielding the narrative string and the new
state. -/
def applyAction : Action → Game → String × Game
  | Action.fold, g => fold g
  | Action.check, g => check g
  | Action.call, g => call g
  | Action.bet a, g => bet a g
  | Action.raise a, g => raise a g
  | Action.allIn, g => allIn g

/-- States reachable within one hand: `startNewHand` on a fresh six-seat game
with starting stack `S` and a full 52-card shuffled deck, followed by any
sequence of betting actions and community-card deals (settlement excluded). -/
inductive Reachable (S : Int) : Game → Prop where
  | start (hid : String) (d : List String) (s : Game) (hd : d.length = 52)
      (hs : startNewHand hid d (freshGame S) = some s) : Reachable S s
  | act (a : Action) (s : Game) (hs : Reachable S s) : Reachable S (applyAction a s).2
  | deal (s s' : Game) (m : Option String) (hs : Reachable S s)
      (hd : dealCommunityCards s = some (m, s')) : Reachable S s'

/-- The sum of the six seats' stacks. -/
def totalStacks (ps : Fin 6 → Player) : Int :=
  (ps 0).stack + (ps 1).stack + (ps 2).stack + (ps 3).stack + (ps 4).stack + (ps 5).stack

/-- Chips visible on the table: pot plus all stacks. -/
def chipTotal (g : Game) : Int := g.pot + totalStacks g.players

end Poker

namespace Poker

lemma totalStacks_congr (ps qs : Fin 6 → Player) (h : ∀ i, (qs i).stack = (ps i).stack) :
    totalStacks qs = totalStacks ps := by
  simp [totalStacks, h]

lemma totalStacks_update (ps : Fin 6 → Player) (j : Fin 6) (p1 : Player) :
    totalStacks (Function.update ps j p1) = totalStacks ps - (ps j).stack + p1.stack := by
  fin_cases j <;> simp [totalStacks, Function.update_apply] <;> ring

lemma resetOthersActed_stack (ps : Fin 6 → Player) (i : Fin 6) :
    (resetOthersActed ps i).stack = (ps i).stack := by
  unfold resetOthersActed; split <;> rfl

lemma resetOthersActed_isFolded (ps : Fin 6 → Player) (i : Fin 6) :
    (resetOthersActed ps i).isFolded = (ps i).isFolded := by
  unfold resetOthersActed; split <;> rfl

lemma resetOthersActed_isAllIn (ps : Fin 6 → Player) (i : Fin 6) :
    (resetOthersActed ps i).isAllIn = (ps i).isAllIn := by
  unfold resetOthersActed; split <;> rfl

lemma totalStacks_resetOthersActed (ps : Fin 6 → Player) :
    totalStacks (resetOthersActed ps) = totalStacks ps :=
  totalStacks_congr ps _ (resetOthersActed_stack ps)

lemma mnbr_players (g : Game) (i : Fin 6) :
    (moveToNextBettingRound g).players i
      = { g.players i with hasActed := false, currentBet := 0 } := by
  unfold moveToNextBettingRound
  split <;> (dsimp only; split <;> rfl)

lemma mnbr_pot (g : Game) : (moveToNextBettingRound g).pot = g.pot := by
  unfold moveToNextBettingRound; split <;> (dsimp only; split <;> rfl)

lemma mnbr_deck (g : Game) : (moveToNextBettingRound g).deck = g.deck := by
  unfold moveToNextBettingRound; split <;> (dsimp only; split <;> rfl)

lemma mnbr_cc (g : Game) : (moveToNextBettingRound g).communityCards = g.communityCards := by
  unfold moveToNextBettingRound; split <;> (dsimp only; split <;> rfl)

lemma mnp_pot (g : Game) : (moveToNextPlayer g).pot = g.pot := by
  unfold moveToNextPlayer
  split
  · rfl
  · split
    · exact mnbr_pot g
    · rfl

lemma mnp_deck (g : Game) : (moveToNextPlayer g).deck = g.deck := by
  unfold moveToNextPlayer
  split
  · rfl
  · split
    · exact mnbr_deck g
    · rfl

lemma mnp_cc (g : Game) : (moveToNextPlayer g).communityCards = g.communityCards := by
  unfold moveToNextPlayer
  split
  · rfl
  · split
    · exact mnbr_cc g
    · rfl

lemma mnp_stack (g : Game) (i : Fin 6) :
    ((moveToNextPlayer g).players i).stack = (g.players i).stack := by
  unfold moveToNextPlayer
  split
  · rfl
  · split
    · rw [mnbr_players]
    · rfl

lemma mnp_isAllIn (g : Game) (i : Fin 6) :
    ((moveToNextPlayer g).players i).isAllIn = (g.players i).isAllIn := by
  unfold moveToNextPlayer
  split
  · rfl
  · split
    · rw [mnbr_players]
    · rfl

lemma chipTotal_mnp (g : Game) : chipTotal (moveToNextPlayer g) = chipTotal g := by
  unfold chipTotal
  rw [mnp_pot, totalStacks_congr g.players _ (mnp_stack g)]

lemma getCurrentPlayer_some (g : Game) (p : Player) (hc : getCurrentPlayer g = some p) :
    p = g.players g.currentPlayerIndex ∧ isHandComplete g = false := by
  unfold getCurrentPlayer at hc
  split at hc
  · exact absurd hc (by simp)
  · exact ⟨(Option.some.injEq _ _ ▸ hc).symm, by simp_all⟩

lemma getCurrentPlayer_none_of_complete (g : Game) (h : isHandComplete g = true) :
    getCurrentPlayer g = none := by
  unfold getCurrentPlayer
  simp [h]

end Poker

namespace Poker

lemma chipTotal_fold (g : Game) : chipTotal (fold g).2 = chipTotal g := by
  unfold fold
  cases hc : getCurrentPlayer g with
  | none => rfl
  | some p =>
    obtain ⟨hp, -⟩ := getCurrentPlayer_some g p hc
    dsimp only
    rw [chipTotal_mnp]
    unfold chipTotal
    dsimp only
    rw [totalStacks_update, ← hp]
    dsimp only
    ring

lemma chipTotal_check (g : Game) : chipTotal (check g).2 = chipTotal g := by
  unfold check
  cases hc : getCurrentPlayer g with
  | none => rfl
  | some p =>
    obtain ⟨hp, -⟩ := getCurrentPlayer_some g p hc
    dsimp only
    split
    · rfl
    · rw [chipTotal_mnp]
      unfold chipTotal
      dsimp only
      rw [totalStacks_update, ← hp]
      dsimp only
      ring

lemma chipTotal_call (g : Game) : chipTotal (call g).2 = chipTotal g := by
  unfold call
  cases hc : getCurrentPlayer g with
  | none => rfl
  | some p =>
    obtain ⟨hp, -⟩ := getCurrentPlayer_some g p hc
    dsimp only
    rw [chipTotal_mnp]
    unfold chipTotal
    dsimp only
    rw [totalStacks_update, ← hp]
    split <;> (dsimp only; ring)

lemma chipTotal_bet (amount : Int) (g : Game) : chipTotal (bet amount g).2 = chipTotal g := by
  unfold bet
  cases hc : getCurrentPlayer g with
  | none => rfl
  | some p =>
    obtain ⟨hp, -⟩ := getCurrentPlayer_some g p hc
    dsimp only
    split
    · rfl
    · rw [chipTotal_mnp]
      unfold chipTotal
      dsimp only
      rw [totalStacks_update, totalStacks_resetOthersActed, resetOthersActed_stack, ← hp]
      split <;> (dsimp only; ring)

lemma chipTotal_raise (amount : Int) (g : Game) :
    chipTotal (raise amount g).2 = chipTotal g := by
  unfold raise
  cases hc : getCurrentPlayer g with
  | none => rfl
  | some p =>
    obtain ⟨hp, -⟩ := getCurrentPlayer_some g p hc
    dsimp only
    split
    · rfl
    · rw [chipTotal_mnp]
      unfold chipTotal
      dsimp only
      rw [totalStacks_update, totalStacks_resetOthersActed, resetOthersActed_stack, ← hp]
      split <;> (dsimp only; ring)

lemma chipTotal_allIn (g : Game) : chipTotal (allIn g).2 = chipTotal g := by
  unfold allIn
  cases hc : getCurrentPlayer g with
  | none => rfl
  | some p =>
    obtain ⟨hp, -⟩ := getCurrentPlayer_some g p hc
    dsimp only
    split
    · rfl
    · rw [chipTotal_mnp]
      unfold chipTotal
      dsimp only
      split
      · rw [totalStacks_update, totalStacks_resetOthersActed, resetOthersActed_stack, ← hp]
        dsimp only
        ring
      · rw [totalStacks_update, ← hp]
        dsimp only
        ring

lemma chipTotal_applyAction (a : Action) (g : Game) :
    chipTotal (applyAction a g).2 = chipTotal g := by
  cases a with
  | fold => exact chipTotal_fold g
  | check => exact chipTotal_check g
  | call => exact chipTotal_call g
  | bet n => exact chipTotal_bet n g
  | raise n => exact chipTotal_raise n g
  | allIn => exact chipTotal_allIn g

end Poker

namespace Poker

lemma deal_preserves (g : Game) (m : Option String) (g' : Game)
    (hd : dealCommunityCards g = some (m, g')) :
    g'.pot = g.pot ∧ g'.players = g.players ∧ g'.gameState = g.gameState := by
  unfold dealCommunityCards at hd
  split at hd
  · split at hd
    · simp only [Option.some.injEq, Prod.mk.injEq] at hd
      obtain ⟨-, hg⟩ := hd
      subst hg
      exact ⟨rfl, rfl, rfl⟩
    · exact Option.noConfusion hd
  · split at hd
    · split at hd
      · simp only [Option.some.injEq, Prod.mk.injEq] at hd
        obtain ⟨-, hg⟩ := hd
        subst hg
        exact ⟨rfl, rfl, rfl⟩
      · exact Option.noConfusion hd
    · split at hd
      · split at hd
        · simp only [Option.some.injEq, Prod.mk.injEq] at hd
          obtain ⟨-, hg⟩ := hd
          subst hg
          exact ⟨rfl, rfl, rfl⟩
        · exact Option.noConfusion hd
      · simp only [Option.some.injEq, Prod.mk.injEq] at hd
        obtain ⟨-, hg⟩ := hd
        subst hg
        exact ⟨rfl, rfl, rfl⟩

lemma chipTotal_startNewHand (S : Int) (hid : String) (d : List String) (s : Game)
    (hs : startNewHand hid d (freshGame S) = some s) : chipTotal s = 6 * S := by
  rcases d with - | ⟨c1, - | ⟨c2, - | ⟨c3, - | ⟨c4, - | ⟨c5, - | ⟨c6, - | ⟨c7, - | ⟨c8,
    - | ⟨c9, - | ⟨c10, - | ⟨c11, - | ⟨c12, rest⟩⟩⟩⟩⟩⟩⟩⟩⟩⟩⟩⟩ <;>
    try exact Option.noConfusion hs
  injection hs with h
  subst h
  simp only [chipTotal, totalStacks, freshGame]
  simp [Function.update_apply]
  ring

end Poker

namespace Poker

/-- A concrete sample state: a hand started on a fresh six-seat game with
stack 10000 from the standard (unshuffled) deck order. -/
def s0 : Game := (startNewHand "hand-1" standardDeck (freshGame 10000)).getD (freshGame 10000)

/-- Claim C1: chip conservation.  For every state reachable from a fresh hand
(`startNewHand` on six seats with starting stack `S`, followed by any sequence
of fold/check/call/bet/raise/allIn actions and street transitions, before
settlement), `pot` plus the sum of all six seats' stacks equals `6 * S`: seat
`currentBet` chips are moved into the pot at commit time, not held
separately. -/
theorem claim_c1_chip_conservation (S : Int) (s : Game) (h : Reachable S s) :
    s.pot + totalStacks s.players = 6 * S := by
  induction h with
  | start hid d s hd hs => exact chipTotal_startNewHand S hid d s hs
  | act a s hs ih =>
    have hp := chipTotal_applyAction a s
    unfold chipTotal at hp
    rw [hp, ih]
  | deal s s' m hs hd ih =>
    obtain ⟨h1, h2, -⟩ := deal_preserves s m s' hd
    rw [h1, h2, ih]

/-- Witness for C1 at a concrete reachable state. -/
theorem claim_c1_chip_conservation_witness :
    s0.pot + totalStacks s0.players = 6 * 10000 :=
  claim_c1_chip_conservation 10000 s0
    (Reachable.start "hand-1" standardDeck s0 (by decide) (by rfl))

end Poker

namespace Poker

/-- The state after all six seats push all-in preflop from `s0`: the sixth
all-in completes the round and the street transition short-circuits to
showdown. -/
def sAllin : Game := (allIn (allIn (allIn (allIn (allIn (allIn s0).2).2).2).2).2).2

/-- Claim C5: turn legality of the valid-actions query.  Whenever there is a
current actor, `getValidActions` never contains "check" when the table bet
exceeds the actor's street bet, never contains "bet" when the table bet is
positive, and never contains "raise" when the table bet is zero.  (The query
is a pure function of the state — it returns only a list and can touch
nothing.) -/
theorem claim_c5_turn_legality (g : Game) (p : Player)
    (hc : getCurrentPlayer g = some p) :
    (p.currentBet < g.currentBet → "check" ∉ getValidActions g) ∧
    (0 < g.currentBet → "bet" ∉ getValidActions g) ∧
    (g.currentBet = 0 → "raise" ∉ getValidActions g) := by
  unfold getValidActions
  rw [hc]
  dsimp only
  split
  · simp
  · refine ⟨?_, ?_, ?_⟩ <;> intro h <;>
      (simp only [List.mem_append, List.mem_cons, List.not_mem_nil]
       split_ifs <;> simp_all <;> omega)

/-- Witness for C5 at the concrete post-blind state `s0` (table bet 40, actor
street bet 0). -/
theorem claim_c5_turn_legality_witness : "check" ∉ getValidActions s0 :=
  (claim_c5_turn_legality s0 (s0.players 3) (by rfl)).1 (by decide)

/-- Claim C3: atomicity of rejection.  Once the hand is complete every action
leaves the state untouched, and each action's guard failure (check facing a
larger table bet, bet with a bet outstanding, raise with no bet outstanding,
all-in on an empty stack) returns the state bit-for-bit unchanged. -/
theorem claim_c3_rejection_atomic (g : Game) (n : Int) :
    (isHandComplete g = true →
      (fold g).2 = g ∧ (check g).2 = g ∧ (call g).2 = g ∧ (bet n g).2 = g ∧
      (raise n g).2 = g ∧ (allIn g).2 = g) ∧
    (∀ p, getCurrentPlayer g = some p →
      (g.currentBet > p.currentBet → (check g).2 = g) ∧
      (g.currentBet > 0 → (bet n g).2 = g) ∧
      (g.currentBet = 0 → (raise n g).2 = g) ∧
      (p.stack = 0 → (allIn g).2 = g)) := by
  constructor
  · intro h
    have hn := getCurrentPlayer_none_of_complete g h
    exact ⟨by unfold fold; rw [hn], by unfold check; rw [hn], by unfold call; rw [hn],
      by unfold bet; rw [hn], by unfold raise; rw [hn], by unfold allIn; rw [hn]⟩
  · intro p hc
    refine ⟨?_, ?_, ?_, ?_⟩ <;> intro h
    · unfold check; rw [hc]; dsimp only; rw [if_pos h]
    · unfold bet; rw [hc]; dsimp only; rw [if_pos h]
    · unfold raise; rw [hc]; dsimp only; rw [if_pos h]
    · unfold allIn; rw [hc]; dsimp only; rw [if_pos h]

/-- Witness for C3: at the completed (showdown) state `sAllin`, a fold is
rejected without mutating anything. -/
theorem claim_c3_rejection_atomic_witness : (fold sAllin).2 = sAllin :=
  ((claim_c3_rejection_atomic sAllin 0).1 (by decide)).1

/-- Counterexample for C2: at the concrete reachable state `s0` the current
actor faces a table bet of 40 with a street bet of 0, so `check` is illegal —
yet the call returns the plain empty string with the state unchanged, i.e. a
silent no-op in-band with the `String` success type, not an explicit typed
failure. -/
theorem claim_c2_counterexample :
    s0.currentBet > (s0.players s0.currentPlayerIndex).currentBet ∧
    check s0 = ("", s0) :=
  ⟨by decide, rfl⟩

/-- Claim C2 as amended: every illegal action (check facing a larger table
bet, bet with a bet outstanding, raise with no bet outstanding, all-in on an
empty stack, or any action once the hand is complete) is a silent no-op — it
returns the empty string and leaves the state unchanged; no typed failure is
surfaced to the caller. -/
theorem claim_c2_amended_silent_noop (g : Game) (n : Int) :
    (isHandComplete g = true →
      fold g = ("", g) ∧ check g = ("", g) ∧ call g = ("", g) ∧ bet n g = ("", g) ∧
      raise n g = ("", g) ∧ allIn g = ("", g)) ∧
    (∀ p, getCurrentPlayer g = some p →
      (g.currentBet > p.currentBet → check g = ("", g)) ∧
      (g.currentBet > 0 → bet n g = ("", g)) ∧
      (g.currentBet = 0 → raise n g = ("", g)) ∧
      (p.stack = 0 → allIn g = ("", g))) := by
  constructor
  · intro h
    have hn := getCurrentPlayer_none_of_complete g h
    exact ⟨by unfold fold; rw [hn], by unfold check; rw [hn], by unfold call; rw [hn],
      by unfold bet; rw [hn], by unfold raise; rw [hn], by unfold allIn; rw [hn]⟩
  · intro p hc
    refine ⟨?_, ?_, ?_, ?_⟩ <;> intro h
    · unfold check; rw [hc]; dsimp only; rw [if_pos h]
    · unfold bet; rw [hc]; dsimp only; rw [if_pos h]
    · unfold raise; rw [hc]; dsimp only; rw [if_pos h]
    · unfold allIn; rw [hc]; dsimp only; rw [if_pos h]

/-- Witness for the amended C2 at the concrete state `s0`. -/
theorem claim_c2_amended_silent_noop_witness : check s0 = ("", s0) :=
  ((claim_c2_amended_silent_noop s0 0).2 (s0.players 3) (by rfl)).1 (by decide)

end Poker

namespace Poker

lemma filtmap (f : Fin 6 → Player) (q : Player → Bool) (l : List (Fin 6)) :
    (l.map f).filter q = (l.filter (fun i => q (f i))).map f := by
  rw [List.filter_map]; rfl

lemma allmap (f : Fin 6 → Player) (r : Player → Bool) (l : List (Fin 6)) :
    (l.map f).all r = l.all (fun i => r (f i)) := by
  induction l with
  | nil => rfl
  | cons a t ih => simp [ih]

lemma activePlayers_all (g : Game) :
    (activePlayers g).all (fun p => p.isAllIn)
      = ((List.finRange 6).filter (fun i => !(g.players i).isFolded)).all
          (fun i => (g.players i).isAllIn) := by
  unfold activePlayers
  rw [filtmap, allmap]

lemma activePlayers_length (g : Game) :
    (activePlayers g).length
      = ((List.finRange 6).filter (fun i => !(g.players i).isFolded)).length := by
  unfold activePlayers
  rw [filtmap, List.length_map]

/-- When every remaining seat is all-in (or at most one seat remains), the
street transition collapses to showdown: only players' street state, the table
bet and the street change. -/
lemma mnbr_showdown (g : Game)
    (H : (activePlayers g).all (fun p => p.isAllIn) = true ∨ (activePlayers g).length ≤ 1) :
    moveToNextBettingRound g =
      { g with players := fun i => { g.players i with hasActed := false, currentBet := 0 },
               currentBet := 0, gameState := GameState.showdown } := by
  unfold moveToNextBettingRound
  dsimp only
  have hc : ((((List.finRange 6).map
        (fun i => { g.players i with hasActed := false, currentBet := 0 })).filter
          (fun p => !p.isFolded)).all (fun p => p.isAllIn)
      || decide ((((List.finRange 6).map
        (fun i => { g.players i with hasActed := false, currentBet := 0 })).filter
          (fun p => !p.isFolded)).length ≤ 1)) = true := by
    rw [filtmap, allmap, List.length_map]
    show (((List.finRange 6).filter (fun i => !(g.players i).isFolded)).all
        (fun i => (g.players i).isAllIn)
      || decide (((List.finRange 6).filter (fun i => !(g.players i).isFolded)).length ≤ 1))
        = true
    rcases H with H | H
    · rw [activePlayers_all] at H
      simp [H]
    · rw [activePlayers_length] at H
      simp [H]
  rw [if_pos hc]

/-- A concrete table in which every seat is all-in (stacks emptied into the
pot), about to undergo a street transition. -/
def gAllSix : Game :=
  { freshGame 0 with
    pot := 600,
    players := fun i => { (freshGame 0).players i with isAllIn := true } }

/-- Counterexample for C4: starting from `s0`, all six seats go all-in
preflop; the sixth all-in completes the round and the transition jumps the
street to showdown with no community cards revealed — yet the reveal-query
`shouldDealCommunityCards` answers `false` (and `dealCommunityCards` is a
no-op), so the engine does NOT mark the remaining cards for reveal. -/
theorem claim_c4_counterexample :
    ((List.finRange 6).all (fun i => (sAllin.players i).isAllIn)) = true ∧
    sAllin.gameState = GameState.showdown ∧
    sAllin.communityCards = [] ∧
    shouldDealCommunityCards sAllin = false ∧
    dealCommunityCards sAllin = some (none, sAllin) :=
  ⟨by decide, by decide, by decide, by decide, rfl⟩

/-- Claim C4 as amended: if at a street transition every remaining non-folded
seat is all-in, or at most one seat remains un-folded, the street becomes
showdown and no further betting is possible (there is no current actor) — but
the engine does not mark the remaining community cards for reveal: the
reveal-query returns `false` on the showdown state, so the state silently
jumps. -/
theorem claim_c4_amended_silent_jump (g : Game)
    (H : (activePlayers g).all (fun p => p.isAllIn) = true ∨ (activePlayers g).length ≤ 1) :
    (moveToNextBettingRound g).gameState = GameState.showdown ∧
    getCurrentPlayer (moveToNextBettingRound g) = none ∧
    shouldDealCommunityCards (moveToNextBettingRound g) = false := by
  rw [mnbr_showdown g H]
  refine ⟨rfl, ?_, ?_⟩
  · simp [getCurrentPlayer, isHandComplete]
  · simp [shouldDealCommunityCards]

/-- Witness for the amended C4: a concrete table where all six seats are
all-in. -/
theorem claim_c4_amended_silent_jump_witness :
    (moveToNextBettingRound gAllSix).gameState = GameState.showdown ∧
    getCurrentPlayer (moveToNextBettingRound gAllSix) = none ∧
    shouldDealCommunityCards (moveToNextBettingRound gAllSix) = false :=
  claim_c4_amended_silent_jump gAllSix (Or.inl (by decide))

end Poker

namespace Poker

/-- `s0` with the current actor's (seat 3's) stack lowered to 30, facing the
big-blind bet of 40. -/
def gC6 : Game :=
  { s0 with players := Function.update s0.players 3 { s0.players 3 with stack := 30 } }

/-- Claim C6: capped commitment.  A committed bet/raise/call amount is capped
to the actor's remaining stack, so the stack never goes negative; and a
current actor with stack 30 facing a bet who invokes `raise 500` commits
exactly 30 chips (the pot grows by 30, not 530), ends with stack 0, and is
marked all-in. -/
theorem claim_c6_capped (g : Game) (p : Player) (n : Int)
    (hc : getCurrentPlayer g = some p) (hst : 0 ≤ p.stack) :
    0 ≤ ((bet n g).2.players g.currentPlayerIndex).stack ∧
    0 ≤ ((raise n g).2.players g.currentPlayerIndex).stack ∧
    0 ≤ ((call g).2.players g.currentPlayerIndex).stack ∧
    (p.stack = 30 → 0 < g.currentBet → p.currentBet ≤ g.currentBet →
      (raise 500 g).2.pot = g.pot + 30 ∧
      ((raise 500 g).2.players g.currentPlayerIndex).stack = 0 ∧
      ((raise 500 g).2.players g.currentPlayerIndex).isAllIn = true) := by
  obtain ⟨hp, -⟩ := getCurrentPlayer_some g p hc
  refine ⟨?_, ?_, ?_, ?_⟩
  · unfold bet
    rw [hc]
    dsimp only
    split
    · rw [← hp]; exact hst
    · rw [mnp_stack]
      dsimp only
      rw [Function.update_same]
      split <;>
        (dsimp only; exact Int.sub_nonneg.mpr (min_le_right _ _))
  · unfold raise
    rw [hc]
    dsimp only
    split
    · rw [← hp]; exact hst
    · rw [mnp_stack]
      dsimp only
      rw [Function.update_same]
      split <;>
        (dsimp only; exact Int.sub_nonneg.mpr (min_le_right _ _))
  · unfold call
    rw [hc]
    dsimp only
    rw [mnp_stack]
    dsimp only
    rw [Function.update_same]
    split <;>
      (dsimp only; exact Int.sub_nonneg.mpr (min_le_right _ _))
  · intro h30 hpos hle
    have hmin : min (g.currentBet - p.currentBet + 500) p.stack = 30 := by
      rw [h30]
      exact min_eq_right (by omega)
    unfold raise
    rw [hc]
    dsimp only
    rw [if_neg (by omega)]
    refine ⟨?_, ?_, ?_⟩
    · rw [mnp_pot]
      dsimp only
      rw [hmin]
    · rw [mnp_stack]
      dsimp only
      rw [Function.update_same]
      rw [if_pos (by rw [hmin, h30]; ring)]
      dsimp only
      rw [hmin, h30]
      ring
    · rw [mnp_isAllIn]
      dsimp only
      rw [Function.update_same]
      rw [if_pos (by rw [hmin, h30]; ring)]

/-- Witness for C6: the concrete state `gC6` (seat 3's stack is 30, table bet
40); `raise 500` commits exactly 30, empties the stack and marks all-in. -/
theorem claim_c6_capped_witness :
    (raise 500 gC6).2.pot = gC6.pot + 30 ∧
    ((raise 500 gC6).2.players gC6.currentPlayerIndex).stack = 0 ∧
    ((raise 500 gC6).2.players gC6.currentPlayerIndex).isAllIn = true :=
  (claim_c6_capped gC6 (gC6.players 3) 0 (by rfl) (by decide)).2.2.2
    (by decide) (by decide) (by decide)

end Poker

namespace Poker

/-- Claim C7: blind posting.  After `startNewHand` on a fresh game with stack
10000: pot 60 (small blind 20 plus big blind 40), small-blind seat stack 9980,
big-blind seat stack 9960, two hole cards per seat, the table bet equals the
big blind (40), and the first to act is the seat immediately after the big
blind (seat 3). -/
theorem claim_c7_blinds (hid : String) (d : List String) (s : Game)
    (hs : startNewHand hid d (freshGame 10000) = some s) :
    s.pot = 60 ∧
    (s.players 1).stack = 9980 ∧
    (s.players 2).stack = 9960 ∧
    (∀ i : Fin 6, (s.players i).holeCards.length = 2) ∧
    s.currentBet = s.bigBlind ∧ s.bigBlind = 40 ∧
    s.currentPlayerIndex = s.bigBlindPosition + 1 ∧ s.currentPlayerIndex = 3 := by
  rcases d with - | ⟨c1, - | ⟨c2, - | ⟨c3, - | ⟨c4, - | ⟨c5, - | ⟨c6, - | ⟨c7, - | ⟨c8,
    - | ⟨c9, - | ⟨c10, - | ⟨c11, - | ⟨c12, rest⟩⟩⟩⟩⟩⟩⟩⟩⟩⟩⟩⟩ <;>
    try exact Option.noConfusion hs
  injection hs with h
  subst h
  refine ⟨rfl, ?_, ?_, ?_, rfl, rfl, rfl, rfl⟩
  · simp [freshGame, Function.update_apply]
  · simp [freshGame, Function.update_apply]
  · intro i
    fin_cases i <;> rfl

/-- Witness for C7 at the concrete fresh hand `s0`. -/
theorem claim_c7_blinds_witness :
    s0.pot = 60 ∧
    (s0.players 1).stack = 9980 ∧
    (s0.players 2).stack = 9960 ∧
    (∀ i : Fin 6, (s0.players i).holeCards.length = 2) ∧
    s0.currentBet = s0.bigBlind ∧ s0.bigBlind = 40 ∧
    s0.currentPlayerIndex = s0.bigBlindPosition + 1 ∧ s0.currentPlayerIndex = 3 :=
  claim_c7_blinds "hand-1" standardDeck s0 (by rfl)

end Poker

namespace Poker

lemma deckcc_fold (g : Game) :
    (fold g).2.deck = g.deck ∧ (fold g).2.communityCards = g.communityCards := by
  unfold fold
  cases hc : getCurrentPlayer g with
  | none => exact ⟨rfl, rfl⟩
  | some p =>
    dsimp only
    exact ⟨by rw [mnp_deck], by rw [mnp_cc]⟩

lemma deckcc_check (g : Game) :
    (check g).2.deck = g.deck ∧ (check g).2.communityCards = g.communityCards := by
  unfold check
  cases hc : getCurrentPlayer g with
  | none => exact ⟨rfl, rfl⟩
  | some p =>
    dsimp only
    split
    · exact ⟨rfl, rfl⟩
    · exact ⟨by rw [mnp_deck], by rw [mnp_cc]⟩

lemma deckcc_call (g : Game) :
    (call g).2.deck = g.deck ∧ (call g).2.communityCards = g.communityCards := by
  unfold call
  cases hc : getCurrentPlayer g with
  | none => exact ⟨rfl, rfl⟩
  | some p =>
    dsimp only
    exact ⟨by rw [mnp_deck], by rw [mnp_cc]⟩

lemma deckcc_bet (n : Int) (g : Game) :
    (bet n g).2.deck = g.deck ∧ (bet n g).2.communityCards = g.communityCards := by
  unfold bet
  cases hc : getCurrentPlayer g with
  | none => exact ⟨rfl, rfl⟩
  | some p =>
    dsimp only
    split
    · exact ⟨rfl, rfl⟩
    · exact ⟨by rw [mnp_deck], by rw [mnp_cc]⟩

lemma deckcc_raise (n : Int) (g : Game) :
    (raise n g).2.deck = g.deck ∧ (raise n g).2.communityCards = g.communityCards := by
  unfold raise
  cases hc : getCurrentPlayer g with
  | none => exact ⟨rfl, rfl⟩
  | some p =>
    dsimp only
    split
    · exact ⟨rfl, rfl⟩
    · exact ⟨by rw [mnp_deck], by rw [mnp_cc]⟩

lemma deckcc_allIn (g : Game) :
    (allIn g).2.deck = g.deck ∧ (allIn g).2.communityCards = g.communityCards := by
  unfold allIn
  cases hc : getCurrentPlayer g with
  | none => exact ⟨rfl, rfl⟩
  | some p =>
    dsimp only
    split
    · exact ⟨rfl, rfl⟩
    · exact ⟨by rw [mnp_deck], by rw [mnp_cc]⟩

lemma deckcc_applyAction (a : Action) (g : Game) :
    (applyAction a g).2.deck = g.deck
      ∧ (applyAction a g).2.communityCards = g.communityCards := by
  cases a with
  | fold => exact deckcc_fold g
  | check => exact deckcc_check g
  | call => exact deckcc_call g
  | bet n => exact deckcc_bet n g
  | raise n => exact deckcc_raise n g
  | allIn => exact deckcc_allIn g

/-- The within-hand relation between the board and the remaining deck: 12 hole
cards leave 40, each street deal burns and reveals (flop 4, turn 2, river 2
cards consumed). -/
def deckInvariant (g : Game) : Prop :=
  (g.communityCards.length = 0 ∧ g.deck.length = 40) ∨
  (g.communityCards.length = 3 ∧ g.deck.length = 36) ∨
  (g.communityCards.length = 4 ∧ g.deck.length = 34) ∨
  (g.communityCards.length = 5 ∧ g.deck.length = 32)

lemma start_deck (hid : String) (d : List String) (g s : Game) (hd : d.length = 52)
    (hs : startNewHand hid d g = some s) :
    s.communityCards.length = 0 ∧ s.deck.length = 40 := by
  rcases d with - | ⟨c1, - | ⟨c2, - | ⟨c3, - | ⟨c4, - | ⟨c5, - | ⟨c6, - | ⟨c7, - | ⟨c8,
    - | ⟨c9, - | ⟨c10, - | ⟨c11, - | ⟨c12, rest⟩⟩⟩⟩⟩⟩⟩⟩⟩⟩⟩⟩ <;>
    try exact Option.noConfusion hs
  injection hs with h
  subst h
  refine ⟨rfl, ?_⟩
  simp only [List.length_cons] at hd
  simpa using by omega

lemma deal_deckInvariant (g : Game) (m : Option String) (g' : Game)
    (hd : dealCommunityCards g = some (m, g')) (hinv : deckInvariant g) :
    deckInvariant g' := by
  unfold dealCommunityCards at hd
  split at hd
  · rename_i hcond
    split at hd
    · rename_i burn c1 c2 c3 rest heq
      simp only [Option.some.injEq, Prod.mk.injEq] at hd
      obtain ⟨-, hg⟩ := hd
      subst hg
      have hc0 := hcond.2
      unfold deckInvariant at hinv ⊢
      dsimp only
      rw [heq] at hinv
      simp only [List.length_cons, List.length_append, List.length_nil] at hinv ⊢
      omega
    · exact Option.noConfusion hd
  · split at hd
    · rename_i hcond
      split at hd
      · rename_i burn c rest heq
        simp only [Option.some.injEq, Prod.mk.injEq] at hd
        obtain ⟨-, hg⟩ := hd
        subst hg
        have hc3 := hcond.2
        unfold deckInvariant at hinv ⊢
        dsimp only
        rw [heq] at hinv
        simp only [List.length_cons, List.length_append, List.length_nil] at hinv ⊢
        omega
      · exact Option.noConfusion hd
    · split at hd
      · rename_i hcond
        split at hd
        · rename_i burn c rest heq
          simp only [Option.some.injEq, Prod.mk.injEq] at hd
          obtain ⟨-, hg⟩ := hd
          subst hg
          have hc4 := hcond.2
          unfold deckInvariant at hinv ⊢
          dsimp only
          rw [heq] at hinv
          simp only [List.length_cons, List.length_append, List.length_nil] at hinv ⊢
          omega
        · exact Option.noConfusion hd
      · simp only [Option.some.injEq, Prod.mk.injEq] at hd
        obtain ⟨-, hg⟩ := hd
        subst hg
        exact hinv

lemma deal_ne_none (g : Game) (hinv : deckInvariant g) : dealCommunityCards g ≠ none := by
  have hlen : 4 ≤ g.deck.length := by unfold deckInvariant at hinv; omega
  rcases hdk : g.deck with - | ⟨a, - | ⟨b, - | ⟨c, - | ⟨d4, rest⟩⟩⟩⟩ <;>
    rw [hdk] at hlen <;> try simp at hlen
  unfold dealCommunityCards
  rw [hdk]
  split
  · simp
  · split
    · simp
    · split
      · simp
      · simp

/-- Claim C8: deck exhaustion is unreachable.  In every reachable state the
board/deck bookkeeping invariant holds, at most 20 of the 52 cards are ever
consumed (the deck never drops below 32 cards), and `dealCommunityCards`
never fails by drawing from an empty deck. -/
theorem claim_c8_no_deck_exhaustion (S : Int) (s : Game) (h : Reachable S s) :
    deckInvariant s ∧ 32 ≤ s.deck.length ∧ dealCommunityCards s ≠ none := by
  have hinv : deckInvariant s := by
    induction h with
    | start hid d s hd hs =>
      exact Or.inl (start_deck hid d (freshGame S) s hd hs)
    | act a s hs ih =>
      obtain ⟨h1, h2⟩ := deckcc_applyAction a s
      unfold deckInvariant at ih ⊢
      rw [h1, h2]
      exact ih
    | deal s s' m hs hd ih => exact deal_deckInvariant s m s' hd ih
  exact ⟨hinv, by unfold deckInvariant at hinv; omega, deal_ne_none s hinv⟩

/-- Witness for C8 at the concrete fresh hand `s0`. -/
theorem claim_c8_no_deck_exhaustion_witness :
    deckInvariant s0 ∧ 32 ≤ s0.deck.length ∧ dealCommunityCards s0 ≠ none :=
  claim_c8_no_deck_exhaustion 10000 s0
    (Reachable.start "hand-1" standardDeck s0 (by decide) (by rfl))

end Poker

namespace Poker

/-- Claim C9: the result record's `actionSequence` is the hardcoded literal
`"f.f.f.r300.c.f.3hKdQs.x.b100.c.Ac.x.x.Th.b80.r160.c"` for EVERY hand — it
is a constant, not a function of the actions taken, so two completed hands
with different action histories receive identical `actionSequence` fields.
This exhibits the divergence between the code and the claimed behaviour. -/
theorem claim_c9_constant_action_sequence (g : Game) (r : HandResult) (g' : Game)
    (h : getHandResult g = some (r, g')) :
    r.actionSequence = "f.f.f.r300.c.f.3hKdQs.x.b100.c.Ac.x.x.Th.b80.r160.c" := by
  unfold getHandResult at h
  split at h
  · exact Option.noConfusion h
  · simp only [Option.some.injEq, Prod.mk.injEq] at h
    obtain ⟨hr, -⟩ := h
    rw [← hr]

/-- The settlement record and post-settlement state of the concrete hand
`s0` (used as a fallback-free accessor for the witness below). -/
def hr0 : HandResult × Game :=
  (getHandResult s0).getD
    ({ id := "", stackSize := 0, dealerPosition := 0, smallBlindPosition := 0,
       bigBlindPosition := 0, playerHands := "", actionSequence := "", winnings := "",
       totalPot := 0, summary := "" }, s0)

/-- Witness for C9 at the concrete hand `s0`. -/
theorem claim_c9_constant_action_sequence_witness :
    hr0.1.actionSequence = "f.f.f.r300.c.f.3hKdQs.x.b100.c.Ac.x.x.Th.b80.r160.c" :=
  claim_c9_constant_action_sequence s0 hr0.1 hr0.2 (by rfl)

/-- Claim C10: every `getHandResult` call awards the whole current pot to the
lowest-indexed non-folded seat (no hand-strength input exists at all), leaves
every other seat and the pot itself untouched, and — because the pot is not
zeroed — a second call on the returned state awards the pot again: the query
mutates state and is not idempotent. -/
theorem claim_c10_result_awards_pot_each_call (g : Game) (w : Fin 6)
    (hw : firstNonFolded g = some w) :
    ∃ r g',
      getHandResult g = some (r, g') ∧
      (g'.players w).stack = (g.players w).stack + g.pot ∧
      (∀ i, i ≠ w → g'.players i = g.players i) ∧
      g'.pot = g.pot ∧
      ∃ r' g'',
        getHandResult g' = some (r', g'') ∧
        (g''.players w).stack = (g.players w).stack + 2 * g.pot := by
  unfold firstNonFolded at hw
  rcases hl : (List.finRange 6).filter (fun i => !(g.players i).isFolded) with - | ⟨w0, t⟩
  · rw [hl] at hw
    exact Option.noConfusion hw
  rw [hl] at hw
  obtain rfl : w0 = w := by simpa using hw
  unfold getHandResult
  rw [hl]
  dsimp only
  refine ⟨_, _, rfl, ?_, ?_, rfl, ?_⟩
  · dsimp only
    rw [Function.update_same]
  · intro i hi
    dsimp only
    rw [Function.update_noteq hi]
  · have hl' : (List.finRange 6).filter
        (fun i => !((Function.update g.players w0
          { g.players w0 with stack := (g.players w0).stack + g.pot }) i).isFolded)
          = w0 :: t := by
      have hfun : (fun i => !((Function.update g.players w0
          { g.players w0 with stack := (g.players w0).stack + g.pot }) i).isFolded)
            = (fun i => !(g.players i).isFolded) := by
        funext i
        by_cases hi : i = w0
        · subst hi
          rw [Function.update_same]
        · rw [Function.update_noteq hi]
      rw [hfun]
      exact hl
    dsimp only
    rw [hl']
    dsimp only
    refine ⟨_, _, rfl, ?_⟩
    dsimp only
    rw [Function.update_same]
    dsimp only
    rw [Function.update_same]
    dsimp only
    ring

/-- Witness for C10 at the concrete hand `s0` (pot 60 is handed to seat 0 on
each call: 10000 → 10060 → 10120). -/
theorem claim_c10_result_awards_pot_each_call_witness :
    ∃ r g',
      getHandResult s0 = some (r, g') ∧
      (g'.players 0).stack = (s0.players 0).stack + s0.pot ∧
      (∀ i, i ≠ 0 → g'.players i = s0.players i) ∧
      g'.pot = s0.pot ∧
      ∃ r' g'',
        getHandResult g' = some (r', g'') ∧
        (g''.players 0).stack = (s0.players 0).stack + 2 * s0.pot :=
  claim_c10_result_awards_pot_each_call s0 0 (by rfl)

end Poker
